import Mathlib

/-!
Verification of the i3pystatus protocol engine (src/i3pystatus/__init__.py)
via a shallow embedding of its core operations: the per-tick merge of module
outputs (`i3pystatus.run`), the JSON line pipeline (`JSONIO`), the line
channel (`IOHandler`), the standalone simulator (`StandaloneIO`), module
settings validation (`Module.__init__`), class discovery (`ClassFinder`)
and registration (`i3pystatus.register`).
-/

namespace i3py

/-- A registered module as the merge loop sees it: its current `output`
value and its `position` attribute (an arbitrary Python int). -/
structure Module (α : Type) where
  output : α
  position : Int

/-- Python `list.insert(i, x)`: the effective index is `max(len + i, 0)`
for negative `i` and `min(i, len)` otherwise (out-of-range indices clamp,
they never error). -/
def list_insert {α : Type} (i : Int) (x : α) (l : List α) : List α :=
  let idx : Nat := if i < 0 then ((l.length : Int) + i).toNat else min i.toNat l.length
  l.take idx ++ x :: l.drop idx

/-- The per-tick merge loop of `i3pystatus.run`: iterate the registry in
registration order and run `j.insert(module.position, module.output)`. -/
def merge_tick {α : Type} (modules : List (Module α)) (j : List α) : List α :=
  modules.foldl (fun acc m => list_insert m.position m.output acc) j

theorem list_insert_of_le {α : Type} (p : Nat) (x : α) (l : List α) (h : p ≤ l.length) :
    list_insert (p : Int) x l = l.take p ++ x :: l.drop p := by
  simp only [list_insert]
  have h0 : ¬ ((p : Int) < 0) := by omega
  simp [h0, Int.toNat_natCast, Nat.min_eq_left h]

theorem get?_append_cons_self {α : Type} (l1 l2 : List α) (x : α) :
    (l1 ++ x :: l2).get? l1.length = some x := by
  rw [List.get?_eq_getElem?, List.getElem?_append_right (Nat.le_refl _)]
  simp

theorem get?_append_cons_one {α : Type} (l1 l2 : List α) (x y : α) :
    (l1 ++ x :: y :: l2).get? (l1.length + 1) = some y := by
  rw [List.get?_eq_getElem?, List.getElem?_append_right (by omega)]
  have h1 : l1.length + 1 - l1.length = 1 := by omega
  rw [h1]
  simp

/-- Merging exactly two modules that share an in-range position p puts the
second module's output at index p and the first one's right after it. -/
theorem merge_two_same_pos {α : Type} (o1 o2 : α) (p : Nat) (j : List α)
    (h : p ≤ j.length) :
    merge_tick [⟨o1, (p : Int)⟩, ⟨o2, (p : Int)⟩] j
      = j.take p ++ o2 :: o1 :: j.drop p := by
  have h1 : merge_tick [⟨o1, (p : Int)⟩, ⟨o2, (p : Int)⟩] j
      = list_insert (p : Int) o2 (list_insert (p : Int) o1 j) := rfl
  rw [h1, list_insert_of_le p o1 j h]
  have hlen : (j.take p).length = p := by rw [List.length_take]; omega
  have h2 : p ≤ (j.take p ++ o1 :: j.drop p).length := by
    simp only [List.length_append, List.length_cons, hlen]
    omega
  rw [list_insert_of_le p o2 _ h2]
  calc (j.take p ++ o1 :: j.drop p).take p ++ o2 :: (j.take p ++ o1 :: j.drop p).drop p
      = (j.take p ++ o1 :: j.drop p).take (j.take p).length
          ++ o2 :: (j.take p ++ o1 :: j.drop p).drop (j.take p).length := by rw [hlen]
    _ = j.take p ++ o2 :: o1 :: j.drop p := by rw [List.take_left, List.drop_left]

/-- C1 counterexample: two modules registered m1 (output "A") then m2
(output "B"), both at position 0, merged into the empty array, give
["B", "A"]: m2's output lands at index 0, strictly to the LEFT of m1's
output at index 1, refuting "m2's output appears to the right of m1's". -/
theorem c1_counterexample :
    merge_tick [⟨"A", 0⟩, ⟨"B", 0⟩] ([] : List String) = ["B", "A"] ∧
    ¬ ((merge_tick [⟨"A", 0⟩, ⟨"B", 0⟩] ([] : List String)).indexOf "A"
        < (merge_tick [⟨"A", 0⟩, ⟨"B", 0⟩] ([] : List String)).indexOf "B") := by
  decide

/-- C1 (amended): for two modules registered m1 then m2 sharing position p,
with p at most the length of the incoming array, the merge places m2's
output at index p and m1's output at index p+1: later-registered modules
at a shared position stack to the LEFT of earlier ones. (Only when p
exceeds the array length does clamping append them in registration order.) -/
theorem c1_same_position_stacks_left {α : Type} (o1 o2 : α) (p : Nat) (j : List α)
    (h : p ≤ j.length) :
    (merge_tick [⟨o1, (p : Int)⟩, ⟨o2, (p : Int)⟩] j).get? p = some o2 ∧
    (merge_tick [⟨o1, (p : Int)⟩, ⟨o2, (p : Int)⟩] j).get? (p + 1) = some o1 := by
  rw [merge_two_same_pos o1 o2 p j h]
  have hlen : (j.take p).length = p := by rw [List.length_take]; omega
  constructor
  · have hs := get?_append_cons_self (j.take p) (o1 :: j.drop p) o2
    rw [hlen] at hs
    exact hs
  · have hs := get?_append_cons_one (j.take p) (j.drop p) o2 o1
    rw [hlen] at hs
    exact hs

/-- C1 witness: at p = 0 into the empty array, outputs "A" then "B" merge
to put "B" at index 0 and "A" at index 1. -/
theorem c1_same_position_stacks_left_witness :
    (merge_tick [⟨"A", (0 : Int)⟩, ⟨"B", (0 : Int)⟩] ([] : List String)).get? 0 = some "B" ∧
    (merge_tick [⟨"A", (0 : Int)⟩, ⟨"B", (0 : Int)⟩] ([] : List String)).get? 1 = some "A" :=
  c1_same_position_stacks_left "A" "B" 0 [] (by decide)

/-- C3: the merge inserts each module's output at its position with
sequence-insert-at-index semantics (for an in-range index p the result is
`take p ++ [x] ++ drop p`, shifting subsequent elements right), and two
modules at positions 0 and 1 with outputs "A" and "B" merged into []
yield ["A", "B"]. -/
theorem c3_merge_insert_semantics :
    (∀ (α : Type) (p : Nat) (x : α) (l : List α), p ≤ l.length →
      list_insert (p : Int) x l = l.take p ++ x :: l.drop p) ∧
    merge_tick [⟨"A", (0 : Int)⟩, ⟨"B", (1 : Int)⟩] ([] : List String) = ["A", "B"] := by
  constructor
  · intro α p x l h
    exact list_insert_of_le p x l h
  · decide

/-- C3 witness: the in-range insert characterization at index 1 of a
one-element list, together with the concrete merge example. -/
theorem c3_merge_insert_semantics_witness :
    list_insert ((1 : Nat) : Int) "B" ["A"] = ["A"].take 1 ++ "B" :: ["A"].drop 1 ∧
    merge_tick [⟨"A", (0 : Int)⟩, ⟨"B", (1 : Int)⟩] ([] : List String) = ["A", "B"] :=
  ⟨c3_merge_insert_semantics.1 String 1 "B" ["A"] (by decide),
   c3_merge_insert_semantics.2⟩

/-- JSON values as Python's `json` module produces them for the inputs the
engine handles (objects keep member order, numbers are ints here). -/
inductive JsonV where
  | null
  | bool (b : Bool)
  | num (n : Int)
  | str (s : String)
  | arr (elems : List JsonV)
  | obj (members : List (String × JsonV))

/-- The opening brace character. -/
def lbrace : Char := Char.ofNat 123

/-- The closing brace character. -/
def rbrace : Char := Char.ofNat 125

/-- JSON string escaping as `json.dumps` performs it for the characters
that occur here. -/
def json_escape_char (c : Char) : List Char :=
  if c = '"' then ['\\', '"']
  else if c = '\\' then ['\\', '\\']
  else if c = '\n' then ['\\', 'n']
  else if c = '\t' then ['\\', 't']
  else if c = '\r' then ['\\', 'r']
  else [c]

/-- Escape a whole string for serialization. -/
def json_escape (s : String) : String := ⟨(s.data.map json_escape_char).flatten⟩

mutual

/-- Nesting depth of a JSON value, used as ample recursion fuel for
serialization. -/
def JsonV.depth : JsonV → Nat
  | .null => 1
  | .bool _ => 1
  | .num _ => 1
  | .str _ => 1
  | .arr xs => 1 + JsonV.depth_list xs
  | .obj ms => 1 + JsonV.depth_members ms

/-- Maximum depth over array elements. -/
def JsonV.depth_list : List JsonV → Nat
  | [] => 0
  | x :: xs => max (JsonV.depth x) (JsonV.depth_list xs)

/-- Maximum depth over object member values. -/
def JsonV.depth_members : List (String × JsonV) → Nat
  | [] => 0
  | m :: ms => max (JsonV.depth m.2) (JsonV.depth_members ms)

end

/-- Serialization depth bound helper: `dumps` recursion bounded by a fuel
that any value's structural size satisfies. -/
def dumps_fuel : Nat → JsonV → String
  | 0, _ => ""
  | fuel + 1, v =>
    match v with
    | .null => "null"
    | .bool true => "true"
    | .bool false => "false"
    | .num n => toString n
    | .str s => "\"" ++ json_escape s ++ "\""
    | .arr xs =>
      "[" ++ String.intercalate ", " (xs.map (dumps_fuel fuel)) ++ "]"
    | .obj ms =>
      String.singleton lbrace
        ++ String.intercalate ", "
            (ms.map (fun m => "\"" ++ json_escape m.1 ++ "\": " ++ dumps_fuel fuel m.2))
        ++ String.singleton rbrace

/-- `json.dumps` with Python's default separators: elements joined by
comma-space, object keys and values joined by colon-space. -/
def dumps (v : JsonV) : String := dumps_fuel v.depth v

/-- JSON insignificant whitespace. -/
def is_json_ws (c : Char) : Bool := c = ' ' || c = '\t' || c = '\n' || c = '\r'

/-- Skip insignificant whitespace. -/
def skip_ws (cs : List Char) : List Char := cs.dropWhile is_json_ws

/-- Parse the body of a JSON string after the opening quote, handling the
basic escapes; returns the decoded characters and the rest of the input. -/
def parse_string_body : List Char → Option (List Char × List Char)
  | [] => none
  | c :: rest =>
    if c = '"' then some ([], rest)
    else if c = '\\' then
      match rest with
      | [] => none
      | e :: rest2 =>
        let dec : Option Char :=
          if e = '"' then some '"'
          else if e = '\\' then some '\\'
          else if e = 'n' then some '\n'
          else if e = 't' then some '\t'
          else if e = 'r' then some '\r'
          else none
        match dec with
        | none => none
        | some d =>
          match parse_string_body rest2 with
          | none => none
          | some (s, r) => some (d :: s, r)
    else
      match parse_string_body rest with
      | none => none
      | some (s, r) => some (c :: s, r)

/-- Parse a run of decimal digits into a natural number. -/
def parse_nat_digits (cs : List Char) : Option (Nat × List Char) :=
  let ds := cs.takeWhile Char.isDigit
  if ds.isEmpty then none
  else some (ds.foldl (fun a c => a * 10 + (c.toNat - '0'.toNat)) 0, cs.dropWhile Char.isDigit)

mutual

/-- Fuel-bounded recursive-descent parse of one JSON value (the fragment
of `json.loads` the protocol can meet: arrays, objects, strings, ints,
booleans, null). -/
def parse_val : Nat → List Char → Option (JsonV × List Char)
  | 0, _ => none
  | fuel + 1, cs =>
    match skip_ws cs with
    | [] => none
    | c :: rest =>
      if c = '[' then
        match skip_ws rest with
        | ']' :: r => some (.arr [], r)
        | r =>
          match parse_elems fuel r with
          | none => none
          | some (vs, r2) => some (.arr vs, r2)
      else if c = lbrace then
        let r := skip_ws rest
        if r.head? = some rbrace then some (.obj [], r.tail)
        else
          match parse_members fuel r with
          | none => none
          | some (ms, r2) => some (.obj ms, r2)
      else if c = '"' then
        match parse_string_body rest with
        | none => none
        | some (s, r) => some (.str ⟨s⟩, r)
      else if c = '-' then
        match parse_nat_digits rest with
        | none => none
        | some (n, r) => some (.num (-(n : Int)), r)
      else if c.isDigit then
        match parse_nat_digits (c :: rest) with
        | none => none
        | some (n, r) => some (.num (n : Int), r)
      else if (c :: rest).take 4 = ['n', 'u', 'l', 'l'] then
        some (.null, (c :: rest).drop 4)
      else if (c :: rest).take 4 = ['t', 'r', 'u', 'e'] then
        some (.bool true, (c :: rest).drop 4)
      else if (c :: rest).take 5 = ['f', 'a', 'l', 's', 'e'] then
        some (.bool false, (c :: rest).drop 5)
      else none

/-- Fuel-bounded parse of the comma-separated elements of a non-empty
array, up to and including the closing bracket. -/
def parse_elems : Nat → List Char → Option (List JsonV × List Char)
  | 0, _ => none
  | fuel + 1, cs =>
    match parse_val fuel cs with
    | none => none
    | some (v, r) =>
      match skip_ws r with
      | ',' :: r2 =>
        match parse_elems fuel r2 with
        | none => none
        | some (vs, r3) => some (v :: vs, r3)
      | ']' :: r2 => some ([v], r2)
      | _ => none

/-- Fuel-bounded parse of the members of a non-empty object, up to and
including the closing brace. -/
def parse_members : Nat → List Char → Option (List (String × JsonV) × List Char)
  | 0, _ => none
  | fuel + 1, cs =>
    match skip_ws cs with
    | '"' :: rest =>
      match parse_string_body rest with
      | none => none
      | some (k, r) =>
        match skip_ws r with
        | ':' :: r2 =>
          match parse_val fuel r2 with
          | none => none
          | some (v, r3) =>
            match skip_ws r3 with
            | [] => none
            | c :: r4 =>
              if c = ',' then
                match parse_members fuel r4 with
                | none => none
                | some (ms, r5) => some ((⟨k⟩, v) :: ms, r5)
              else if c = rbrace then some ([(⟨k⟩, v)], r4)
              else none
        | _ => none
    | _ => none

end

/-- `json.loads`: parse a complete JSON document, rejecting trailing
garbage. The fuel is ample for any nesting the input length permits. -/
def loads (s : String) : Option JsonV :=
  match parse_val (2 * s.data.length + 2) s.data with
  | some (v, rest) => if skip_ws rest = [] then some v else none
  | none => none

/-- The comma-stripping step of `JSONIO.parse_line`: an optional single
leading comma is remembered as the write-back prefix. -/
def parse_line_split (line : List Char) : String × List Char :=
  match line with
  | ',' :: rest => (",", rest)
  | _ => ("", line)

/-- The body of `i3pystatus.run`'s with-block: each registered module's
output is inserted into the parsed array. With no modules, any parsed
value passes through untouched; with modules, the value must be a list
(as `json.loads` yields for an array) for `insert` to exist on it. -/
def run_modules (modules : List (Module JsonV)) (j : JsonV) : Option JsonV :=
  match modules with
  | [] => some j
  | _ =>
    match j with
    | .arr xs => some (.arr (merge_tick modules xs))
    | _ => none

/-- One full tick through `JSONIO.parse_line` driven by `i3pystatus.run`:
strip the optional leading comma, `json.loads` the remainder, let the
merge loop mutate it, then write back the prefix plus `json.dumps` of
the result. `none` models a raised exception (protocol-fatal). -/
def process_tick_line (modules : List (Module JsonV)) (line : String) : Option String :=
  let split := parse_line_split line.data
  match loads ⟨split.2⟩ with
  | none => none
  | some j =>
    match run_modules modules j with
    | none => none
    | some j2 => some (split.1 ++ dumps j2)

/-- C2 counterexample: with no modules registered, the tick line
`,[\x7b"x":1\x7d]` is written back as `,[\x7b"x": 1\x7d]` — `json.dumps`
re-serializes with Python's default separators (a space after the colon),
so the output is NOT byte-for-byte the input line. -/
theorem c2_counterexample :
    process_tick_line [] ",[\x7b\"x\":1\x7d]" = some ",[\x7b\"x\": 1\x7d]" ∧
    (",[\x7b\"x\": 1\x7d]" : String) ≠ ",[\x7b\"x\":1\x7d]" :=
  ⟨rfl, by decide⟩

/-- C2 (amended): with no modules registered, a first-tick line `[]`
round-trips byte-for-byte with no comma added, and a comma-prefixed line
`,[\x7b"x":1\x7d]` keeps its comma prefix and its JSON content (the
written body parses back to the same value) but is re-serialized with
Python's default separators, yielding `,[\x7b"x": 1\x7d]`. -/
theorem c2_roundtrip :
    process_tick_line [] "[]" = some "[]" ∧
    process_tick_line [] ",[\x7b\"x\":1\x7d]" = some ",[\x7b\"x\": 1\x7d]" ∧
    loads "[\x7b\"x\": 1\x7d]" = loads "[\x7b\"x\":1\x7d]" :=
  ⟨rfl, rfl, rfl⟩

namespace StandaloneIo

/-- `StandaloneIO.proto`: the fixed protocol lines of the simulator. -/
def proto : List String := ["\x7b\"version\": 1\x7d", "[", "[]", ",[]"]

/-- `StandaloneIO.read_line`: increment the counter (initially -1) and
return `proto[min(n, len(proto)-1)]`, pairing the line with the new
counter value. -/
def read_line (n : Int) : String × Int :=
  let n2 := n + 1
  (proto.getD (min n2 ((proto.length : Int) - 1)).toNat "", n2)

/-- The trace of k successive `read_line` calls from counter state n. -/
def runReads : Nat → Int → List String × Int
  | 0, n => ([], n)
  | k + 1, n =>
    let r := read_line n
    let rest := runReads k r.2
    (r.1 :: rest.1, rest.2)

/-- Once the counter has reached 2, every further read yields ",[]". -/
theorem runReads_ge_two (k : Nat) : ∀ n : Int, 2 ≤ n →
    (runReads k n).1 = List.replicate k ",[]" := by
  induction k with
  | zero => intro n _; rfl
  | succ k ih =>
    intro n h
    have hm : min (n + 1) ((proto.length : Int) - 1) = 3 := by
      simp only [proto, List.length_cons, List.length_nil]
      omega
    simp only [runReads, read_line, hm]
    rw [ih (n + 1) (by omega)]
    rfl

end StandaloneIo

/-- C4: starting from the simulator's initial counter -1, the reads come
back in exactly the order version header, opening bracket, "[]", and then
",[]" on every read thereafter. -/
theorem c4_standalone_read_sequence (k : Nat) :
    (StandaloneIo.runReads (k + 3) (-1)).1
      = "\x7b\"version\": 1\x7d" :: "[" :: "[]" :: List.replicate k ",[]" := by
  have h1 : StandaloneIo.read_line (-1) = ("\x7b\"version\": 1\x7d", 0) := rfl
  have h2 : StandaloneIo.read_line 0 = ("[", 1) := rfl
  have h3 : StandaloneIo.read_line 1 = ("[]", 2) := rfl
  simp only [StandaloneIo.runReads, h1, h2, h3]
  rw [StandaloneIo.runReads_ge_two k 2 (by omega)]

/-- The `ConfigurationError` exception, with the data its constructor
formats into the message: the module name plus the invalid key, the
missing required options, the colliding classes, or the no-class flag. -/
inductive ConfigurationError where
  | invalidKey (module key : String)
  | missingOptions (module : String) (missing : List String)
  | ambigiousClasses (module : String) (classes : List String)
  | noClassFound (module : String)
  deriving DecidableEq

/-- The exceptions the embedded code can raise. -/
inductive PyExn where
  | eofError
  | keyboardInterrupt
  | typeError (msg : String)
  | valueError (msg : String)
  | nameError (msg : String)
  | configError (e : ConfigurationError)
  deriving DecidableEq

/-- One event on the input side of a line channel: a line arriving, or an
interrupt signal arriving while the reader blocks. An exhausted event
list models the closed/ended underlying stream. -/
inductive InEvent where
  | line (s : String)
  | interrupt
  deriving DecidableEq

/-- Python `str.strip()`: remove leading and trailing whitespace. -/
def py_strip (s : String) : String :=
  ⟨((s.data.dropWhile Char.isWhitespace).reverse.dropWhile Char.isWhitespace).reverse⟩

namespace IoHandler

/-- `self.inp.readline()`: at end of stream Python returns the empty
string; an interrupt while blocked raises KeyboardInterrupt; otherwise
the next line is returned. -/
def inp_readline : List InEvent → Except PyExn (String × List InEvent)
  | [] => .ok ("", [])
  | .interrupt :: _ => .error .keyboardInterrupt
  | .line s :: rest => .ok (s, rest)

/-- `IOHandler.read_line`: strip the line read; KeyboardInterrupt is
turned into EOFError; a falsy (empty) stripped line raises EOFError. -/
def read_line (evs : List InEvent) : Except PyExn (String × List InEvent) :=
  match inp_readline evs with
  | .error e => if e = .keyboardInterrupt then .error .eofError else .error e
  | .ok (s, r) =>
    let t := py_strip s
    if t = "" then .error .eofError else .ok (t, r)

/-- `IOHandler.read`: the generator that yields lines until `read_line`
raises EOFError, which it catches and turns into normal termination. -/
def read : List InEvent → List String
  | [] => []
  | .interrupt :: _ => []
  | .line s :: rest =>
    let t := py_strip s
    if t = "" then [] else t :: read rest

end IoHandler

/-- C6: `read_line` fails only with the end-of-stream error, it does so
exactly when the stream has ended, an interrupt arrived, or the stripped
line is empty, and the `read` sequence then terminates cleanly (yields
its lines and stops) instead of propagating an error. -/
theorem c6_read_line_end_of_stream :
    (∀ evs e, IoHandler.read_line evs = .error e → e = PyExn.eofError) ∧
    (∀ evs, (∃ e, IoHandler.read_line evs = .error e) ↔
      (evs = [] ∨ (∃ r, evs = InEvent.interrupt :: r) ∨
        ∃ s r, evs = InEvent.line s :: r ∧ py_strip s = "")) ∧
    (∀ evs e, IoHandler.read_line evs = .error e → IoHandler.read evs = []) ∧
    (∀ evs s r, IoHandler.read_line evs = .ok (s, r) →
      IoHandler.read evs = s :: IoHandler.read r) := by
  have hchar : ∀ evs, IoHandler.read_line evs = .error PyExn.eofError ∨
      ∃ s r, IoHandler.read_line evs = .ok (py_strip s, r) ∧ evs = InEvent.line s :: r ∧
        py_strip s ≠ "" := by
    intro evs
    match evs with
    | [] => exact Or.inl rfl
    | .interrupt :: r => exact Or.inl rfl
    | .line s :: r =>
      by_cases hs : py_strip s = ""
      · left
        simp [IoHandler.read_line, IoHandler.inp_readline, hs]
      · right
        exact ⟨s, r, by simp [IoHandler.read_line, IoHandler.inp_readline, hs], rfl, hs⟩
  refine ⟨?_, ?_, ?_, ?_⟩
  · intro evs e h
    rcases hchar evs with h1 | ⟨s, r, h1, _, _⟩
    · rw [h1] at h
      exact (Except.error.injEq _ _).mp h.symm
    · rw [h1] at h
      exact absurd h (by simp)
  · intro evs
    constructor
    · intro ⟨e, he⟩
      match evs, he with
      | [], _ => exact Or.inl rfl
      | .interrupt :: r, _ => exact Or.inr (Or.inl ⟨r, rfl⟩)
      | .line s :: r, he =>
        refine Or.inr (Or.inr ⟨s, r, rfl, ?_⟩)
        by_cases hs : py_strip s = ""
        · exact hs
        · simp [IoHandler.read_line, IoHandler.inp_readline, hs] at he
    · intro h
      rcases h with h | ⟨r, h⟩ | ⟨s, r, h, hs⟩
      · exact ⟨.eofError, by rw [h]; rfl⟩
      · exact ⟨.eofError, by rw [h]; rfl⟩
      · exact ⟨.eofError, by rw [h]; simp [IoHandler.read_line, IoHandler.inp_readline, hs]⟩
  · intro evs e h
    match evs, h with
    | [], _ => rfl
    | .interrupt :: r, _ => rfl
    | .line s :: r, h =>
      by_cases hs : py_strip s = ""
      · simp [IoHandler.read, hs]
      · simp [IoHandler.read_line, IoHandler.inp_readline, hs] at h
  · intro evs s r h
    match evs, h with
    | .line s0 :: r0, h =>
      by_cases hs : py_strip s0 = ""
      · simp [IoHandler.read_line, IoHandler.inp_readline, hs] at h
      · simp only [IoHandler.read_line, IoHandler.inp_readline, hs, if_neg hs] at h
        obtain ⟨hs1, hr1⟩ := Prod.mk.injEq _ _ _ _ ▸ (Except.ok.injEq _ _).mp h
        simp only [IoHandler.read, hs, if_neg hs]
        rw [hs1, hr1]
        simp

/-- C6 witness: the closed stream errors with end-of-stream, and a
nonblank line is yielded ahead of the rest of the sequence. -/
theorem c6_read_line_end_of_stream_witness :
    (PyExn.eofError = PyExn.eofError) ∧
    IoHandler.read [InEvent.line "a"] = "a" :: IoHandler.read [] :=
  ⟨c6_read_line_end_of_stream.1 [] PyExn.eofError rfl,
   c6_read_line_end_of_stream.2.2.2 [InEvent.line "a"] "a" [] rfl⟩

namespace JsonIo

/-- `JSONIO.__init__`: perform `write_line(read_line())` twice; the pair
returned is the remaining input and the lines written, in order. An
error from either read propagates. -/
def init (evs : List InEvent) : Except PyExn (List InEvent × List String) :=
  match IoHandler.read_line evs with
  | .error e => .error e
  | .ok (l1, r1) =>
    match IoHandler.read_line r1 with
    | .error e => .error e
    | .ok (l2, r2) => .ok (r2, [l1, l2])

end JsonIo

/-- C5: constructing the JSON pipeline on a channel whose first two lines
are nonblank reads exactly those two lines and writes exactly them back
unchanged, in order, leaving the rest of the input untouched (no tick
line is consumed or written during the handshake). -/
theorem c5_handshake_echoes_two_lines (a b : String) (rest : List InEvent)
    (ha : py_strip a ≠ "") (hb : py_strip b ≠ "") :
    JsonIo.init (InEvent.line a :: InEvent.line b :: rest)
      = .ok (rest, [py_strip a, py_strip b]) := by
  simp [JsonIo.init, IoHandler.read_line, IoHandler.inp_readline, ha, hb]

/-- C5 witness: the i3bar handshake lines are echoed verbatim. -/
theorem c5_handshake_echoes_two_lines_witness :
    JsonIo.init [InEvent.line "\x7b\"version\": 1\x7d", InEvent.line "["]
      = .ok ([], [py_strip "\x7b\"version\": 1\x7d", py_strip "["]) :=
  c5_handshake_echoes_two_lines "\x7b\"version\": 1\x7d" "[" [] (by decide) (by decide)

/-- The kwargs loop of `Module.__init__`: walk the supplied settings in
order; a recognized key is stored with `setattr` and remembered in the
provided-keys accumulator, an unrecognized key raises ConfigurationError
naming it. (The tuple-of-(setting, docstring) declaration form reduces
to the plain name list before this loop; `settings` here is that list.) -/
def set_attrs {V : Type} (name : String) (settings : List String) :
    List (String × V) → Except ConfigurationError (List (String × V) × List String)
  | [] => .ok ([], [])
  | (k, v) :: rest =>
    if settings.contains k then
      match set_attrs name settings rest with
      | .error e => .error e
      | .ok (attrs, prov) => .ok ((k, v) :: attrs, k :: prov)
    else .error (.invalidKey name k)

/-- `Module.__init__` after the kwargs loop: intersect the provided
recognized keys with `self.required`; if that intersection is smaller
than `required`, raise with `self.required - provided`. (`required` is a
set in the source; it enters here as a duplicate-free list.) -/
def module_init {V : Type} (name : String) (settings required : List String)
    (kwargs : List (String × V)) : Except ConfigurationError (List (String × V)) :=
  match set_attrs name settings kwargs with
  | .error e => .error e
  | .ok (attrs, prov) =>
    if (required.filter fun k => prov.contains k).length ≠ required.length then
      .error (.missingOptions name (required.filter fun k => !prov.contains k))
    else .ok attrs

theorem set_attrs_error_first {V : Type} (name : String) (settings : List String)
    (kwargs : List (String × V)) (k : String)
    (h : (kwargs.map Prod.fst).find? (fun key => !settings.contains key) = some k) :
    set_attrs name settings kwargs = .error (.invalidKey name k) := by
  induction kwargs with
  | nil => simp at h
  | cons kv rest ih =>
    simp only [List.map_cons, List.find?_cons] at h
    by_cases hk : settings.contains kv.1
    · simp only [hk, Bool.not_true] at h
      simp only [set_attrs, hk, if_pos, ih h]
    · simp only [hk, Bool.not_false] at h
      injection h with h
      subst h
      simp only [set_attrs]
      rw [if_neg hk]

theorem set_attrs_all_recognized {V : Type} (name : String) (settings : List String)
    (kwargs : List (String × V))
    (h : ∀ key ∈ kwargs.map Prod.fst, settings.contains key) :
    set_attrs name settings kwargs = .ok (kwargs, kwargs.map Prod.fst) := by
  induction kwargs with
  | nil => rfl
  | cons kv rest ih =>
    have hk : settings.contains kv.1 = true := h kv.1 (by simp)
    have hrest : ∀ key ∈ rest.map Prod.fst, settings.contains key := by
      intro key hkey
      exact h key (by simp [hkey])
    simp only [set_attrs, hk, if_pos, ih hrest, List.map_cons]

theorem filter_length_eq_iff (p : String → Bool) (l : List String) :
    (l.filter p).length = l.length ↔ l.filter (fun a => !(p a)) = [] := by
  induction l with
  | nil => simp
  | cons a l ih =>
    by_cases h : p a
    · simp [List.filter_cons, h, ih]
    · have hle := List.length_filter_le p l
      simp [List.filter_cons, h]
      omega

/-- C7: constructing a module with a kwargs mapping whose first
unrecognized key is k raises ConfigurationError naming k; with every key
recognized but some required keys unsupplied, it raises
ConfigurationError listing exactly `required - provided`. -/
theorem c7_settings_validation (V : Type) :
    (∀ (name : String) (settings required : List String)
        (kwargs : List (String × V)) (k : String),
      (kwargs.map Prod.fst).find? (fun key => !settings.contains key) = some k →
      module_init name settings required kwargs
        = .error (.invalidKey name k)) ∧
    (∀ (name : String) (settings required : List String)
        (kwargs : List (String × V)),
      (∀ key ∈ kwargs.map Prod.fst, settings.contains key) →
      required.filter (fun k => !(kwargs.map Prod.fst).contains k) ≠ [] →
      module_init name settings required kwargs
        = .error (.missingOptions name
            (required.filter fun k => !(kwargs.map Prod.fst).contains k))) := by
  constructor
  · intro name settings required kwargs k h
    simp only [module_init, set_attrs_error_first name settings kwargs k h]
  · intro name settings required kwargs hall hmiss
    simp only [module_init, set_attrs_all_recognized name settings kwargs hall]
    have hne : (required.filter fun k => (kwargs.map Prod.fst).contains k).length
        ≠ required.length := by
      intro heq
      exact hmiss ((filter_length_eq_iff _ required).mp heq)
    simp only [hne, if_pos, ne_eq, not_false_iff]

/-- C7 witness: an unknown key "foo" is named in the error; omitting the
single required key "a" lists exactly ["a"]. -/
theorem c7_settings_validation_witness :
    module_init "Test" ["a"] ["a"] [("foo", "v")] = .error (.invalidKey "Test" "foo") ∧
    module_init "Test" ["a"] ["a"] ([] : List (String × String))
      = .error (.missingOptions "Test" ["a"]) :=
  ⟨(c7_settings_validation String).1 "Test" ["a"] ["a"] [("foo", "v")] "foo" (by decide),
   (c7_settings_validation String).2 "Test" ["a"] ["a"] [] (by simp) (by decide)⟩

/-- A candidate class object of a Python module, as `ClassFinder`'s
predicate inspects it: is it a class, a subclass of `Module`, and is it
one of the three excluded abstract bases. -/
structure CandClass where
  name : String
  isclass : Bool
  subclass_of_module : Bool
  excluded : Bool
  deriving DecidableEq

/-- A Python 3 `zip(...)` object: a lazy iterator over the zipped tuples
(held here only to record what the iterator would produce). -/
structure zipobject (α : Type) where
  tuples : List α

/-- Subscripting a `zip` object: Python 3 iterators do not implement
`__getitem__`, so `zip(...)[i]` raises TypeError for every index and
every content, including the empty one. -/
def zipobject.getitem {α : Type} (_ : zipobject α) (_ : Nat) : Except PyExn α :=
  .error (.typeError "zip object is not subscriptable")

/-- A zipped row is either the tuple of member names or the tuple of
member classes. -/
inductive ZipRow where
  | names (ns : List String)
  | classes (cs : List CandClass)

/-- `zip(*pairs)` over (name, class) member pairs: transposing a
non-empty pair list yields the names row then the classes row; an empty
argument list yields an empty iterator. -/
def py_zip_star (pairs : List (String × CandClass)) : zipobject ZipRow :=
  if pairs.isEmpty then ⟨[]⟩
  else ⟨[.names (pairs.map Prod.fst), .classes (pairs.map Prod.snd)]⟩

namespace ClassFinder

/-- `ClassFinder.predicate`: `inspect.isclass(obj) and issubclass(obj,
baseclass) and obj not in self.exclude`. -/
def predicate (c : CandClass) : Bool :=
  c.isclass && c.subclass_of_module && !c.excluded

/-- `inspect.getmembers(module, predicate)`: the matching (name, value)
pairs of the module's members. -/
def getmembers (members : List CandClass) : List (String × CandClass) :=
  (members.filter predicate).map fun c => (c.name, c)

/-- `ClassFinder.search_module`: `zip(*getmembers(...))[1]`. -/
def search_module (members : List CandClass) : Except PyExn (List CandClass) :=
  match (py_zip_star (getmembers members)).getitem 1 with
  | .error e => .error e
  | .ok (ZipRow.classes cs) => .ok cs
  | .ok (ZipRow.names _) => .error (.typeError "tuple of names where classes expected")

/-- `ClassFinder.get_class`: take the classes found by `search_module`;
more than one is the ambiguity ConfigurationError, none is the no-class
ConfigurationError, exactly one is returned. -/
def get_class (modname : String) (members : List CandClass) : Except PyExn CandClass :=
  match search_module members with
  | .error e => .error e
  | .ok classes =>
    if classes.length > 1 then
      .error (.configError (.ambigiousClasses modname (classes.map CandClass.name)))
    else
      match classes with
      | [] => .error (.configError (.noClassFound modname))
      | c :: _ => .ok c

end ClassFinder

/-- C8 (code bug): under Python 3 semantics `search_module` subscripts a
`zip` iterator, which raises TypeError before `get_class` can test the
candidate count, so resolution ALWAYS fails with TypeError — the
no-eligible-class and ambiguity ConfigurationErrors are unreachable for
every candidate source, the empty one included. -/
theorem c8_get_class_always_type_error (modname : String) (members : List CandClass) :
    ClassFinder.get_class modname members
      = .error (.typeError "zip object is not subscriptable") := rfl

namespace i3pystatus

/-- The `module` argument of `register`: either an already-constructed
module instance, or a Python module object (`types.ModuleType`) holding
candidate classes. -/
inductive ModuleArg where
  | inst (m : Module JsonV)
  | pymod (members : List CandClass)

/-- `i3pystatus._make_instance`: for a module object it would resolve the
class via `self.finder` — but `_make_instance` is a classmethod with no
`self` in scope, so that branch raises NameError; for a pre-built
instance, any extra positional or keyword arguments raise ValueError,
otherwise the instance passes through with the position. -/
def _make_instance (module : ModuleArg) (position : Int) (args : List JsonV)
    (kwargs : List (String × JsonV)) : Except PyExn (Module JsonV × Int) :=
  match module with
  | .pymod _ => .error (.nameError "name self is not defined")
  | .inst m =>
    if args.isEmpty && kwargs.isEmpty then .ok (m, position)
    else .error (.valueError "Additional arguments are invalid if module is already an object")

/-- `i3pystatus.register`: resolve the instance, then append it to the
registry and set its position (the `registered` hook starts the module's
own schedule and does not touch the registry). An error from
`_make_instance` propagates before the append happens. -/
def register (registry : List (Module JsonV)) (module : ModuleArg) (position : Int)
    (args : List JsonV) (kwargs : List (String × JsonV)) :
    Except PyExn (List (Module JsonV)) :=
  match _make_instance module position args kwargs with
  | .error e => .error e
  | .ok (m, pos) => .ok (registry ++ [{ m with position := pos }])

end i3pystatus

/-- C9: registering an already-constructed instance together with any
extra positional or keyword constructor arguments raises the
additional-arguments-invalid error, and the registration fails before
anything is appended to the registry. -/
theorem c9_prebuilt_with_args_rejected (registry : List (Module JsonV))
    (m : Module JsonV) (position : Int) (args : List JsonV)
    (kwargs : List (String × JsonV)) (h : args ≠ [] ∨ kwargs ≠ []) :
    i3pystatus.register registry (.inst m) position args kwargs
      = .error (.valueError "Additional arguments are invalid if module is already an object") := by
  have hne : (args.isEmpty && kwargs.isEmpty) = false := by
    rcases h with h | h
    · simp [List.isEmpty_iff, h]
    · simp [List.isEmpty_iff, h]
  simp only [i3pystatus.register, i3pystatus._make_instance, hne, Bool.false_eq_true,
    if_false]

/-- C9 witness: a pre-built module plus one positional argument is
rejected with the additional-arguments error. -/
theorem c9_prebuilt_with_args_rejected_witness :
    i3pystatus.register [] (.inst ⟨JsonV.null, 0⟩) 0 [JsonV.null] []
      = .error (.valueError "Additional arguments are invalid if module is already an object") :=
  c9_prebuilt_with_args_rejected [] ⟨JsonV.null, 0⟩ 0 [JsonV.null] [] (Or.inl (by simp))

/-- References into the object heap holding Python list objects. -/
def Heap : Type := Nat → List (Module JsonV)

/-- The engine class object: its class dict maps the attribute `modules`
to one list object, created once when the class statement runs. -/
structure EngineClass where
  modulesRef : Nat

/-- An engine instance: its class, and its instance dict's entry for
`modules` if one was ever assigned (none is ever assigned: `__init__`
only sets `io` and `finder`). -/
structure EngineInst where
  cls : EngineClass
  ownModulesRef : Option Nat

/-- `i3pystatus(...)`: construct an instance; the instance dict has no
`modules` entry. -/
def engine_new (c : EngineClass) : EngineInst := ⟨c, none⟩

/-- Python attribute lookup for `self.modules`: the instance dict first,
falling back to the class attribute. -/
def modules_ref (e : EngineInst) : Nat := e.ownModulesRef.getD e.cls.modulesRef

/-- Read `self.modules`. -/
def get_modules (h : Heap) (e : EngineInst) : List (Module JsonV) := h (modules_ref e)

/-- `self.modules.append(module)`: mutate the referenced list object in
place. -/
def append_module (h : Heap) (e : EngineInst) (m : Module JsonV) : Heap :=
  fun r => if r = modules_ref e then h r ++ [m] else h r

/-- The per-tick merge of `run`, reading `self.modules` through the same
attribute lookup. -/
def run_tick_via (h : Heap) (e : EngineInst) (j : List JsonV) : List JsonV :=
  merge_tick (get_modules h e) j

/-- C10: for any two engine instances of the class whose instance dicts
lack a `modules` entry (as `__init__` leaves them), a module appended
through one is visible in the other's registry and is merged into the
other's ticks: the registry is one class-level list, not per-instance
state. -/
theorem c10_registry_is_class_level (h : Heap) (e1 e2 : EngineInst) (m : Module JsonV)
    (j : List JsonV) (hc : e1.cls = e2.cls) (h1 : e1.ownModulesRef = none)
    (h2 : e2.ownModulesRef = none) :
    get_modules (append_module h e1 m) e2 = get_modules h e2 ++ [m] ∧
    run_tick_via (append_module h e1 m) e2 j
      = merge_tick (get_modules h e2 ++ [m]) j := by
  have href : modules_ref e1 = modules_ref e2 := by
    simp [modules_ref, h1, h2, hc]
  have hget : get_modules (append_module h e1 m) e2 = get_modules h e2 ++ [m] := by
    simp [get_modules, append_module, href]
  exact ⟨hget, by simp [run_tick_via, hget]⟩

/-- C10 witness: two freshly-constructed instances of the class share the
registration made through the first. -/
theorem c10_registry_is_class_level_witness :
    get_modules (append_module (fun _ => []) (engine_new ⟨0⟩) ⟨JsonV.null, 0⟩)
        (engine_new ⟨0⟩)
      = get_modules (fun _ => []) (engine_new ⟨0⟩) ++ [⟨JsonV.null, 0⟩] ∧
    run_tick_via (append_module (fun _ => []) (engine_new ⟨0⟩) ⟨JsonV.null, 0⟩)
        (engine_new ⟨0⟩) []
      = merge_tick (get_modules (fun _ => []) (engine_new ⟨0⟩) ++ [⟨JsonV.null, 0⟩]) [] :=
  c10_registry_is_class_level (fun _ => []) (engine_new ⟨0⟩) (engine_new ⟨0⟩)
    ⟨JsonV.null, 0⟩ [] rfl rfl rfl

end i3py
